import Mathlib

/-!
Verification of the SSH remote-client core of the `bit` repository
(`src/scope/network/ssh` and collaborators), shallowly embedded in Lean.
Strings are modelled as byte strings (each `Char` a byte), matching the
spec's view of arguments as opaque byte payloads.
-/

namespace BitSSH

/-- Modelled from the spec: `toBase64` lives in `src/utils`, which is not
under `src/` here.  The spec requires standard base64 encoding whose
decoding always reproduces the original byte string.  Alphabet table. -/
def base64Chars : List Char :=
  "ABCDEFGHIJKLMNOPQRSTUVWXYZabcdefghijklmnopqrstuvwxyz0123456789+/".data

/-- The base64 digit for a 6-bit value. -/
def b64Char (n : Nat) : Char := base64Chars.getD n 'A'

/-- The 6-bit value of a base64 digit (64 for a non-alphabet char). -/
def dVal (c : Char) : Nat := base64Chars.indexOf c

/-- Base64-encode a byte list, three bytes to four digits, `=`-padded. -/
def encodeChunks : List Nat → List Char
  | [] => []
  | [b1] => [b64Char (b1 / 4), b64Char (b1 % 4 * 16), '=', '=']
  | [b1, b2] =>
      [b64Char (b1 / 4), b64Char (b1 % 4 * 16 + b2 / 16), b64Char (b2 % 16 * 4), '=']
  | b1 :: b2 :: b3 :: rest =>
      b64Char (b1 / 4) :: b64Char (b1 % 4 * 16 + b2 / 16) ::
      b64Char (b2 % 16 * 4 + b3 / 64) :: b64Char (b3 % 64) :: encodeChunks rest

/-- Base64-decode a digit list back to bytes; total, as Node's decoder is. -/
def decodeChunks : List Char → List Nat
  | c1 :: c2 :: c3 :: c4 :: rest =>
      if c3 = '=' then [dVal c1 * 4 + dVal c2 / 16]
      else if c4 = '=' then
        [dVal c1 * 4 + dVal c2 / 16, dVal c2 % 16 * 16 + dVal c3 / 4]
      else
        (dVal c1 * 4 + dVal c2 / 16) :: (dVal c2 % 16 * 16 + dVal c3 / 4) ::
        (dVal c3 % 4 * 64 + dVal c4) :: decodeChunks rest
  | _ => []

/-- Modelled from the spec: `toBase64` from `src/utils`. -/
def toBase64 (s : String) : String := ⟨encodeChunks (s.data.map Char.toNat)⟩

/-- Modelled from the spec: `fromBase64` from `src/utils`. -/
def fromBase64 (s : String) : String := ⟨(decodeChunks s.data).map Char.ofNat⟩

/-- JS string replace with a string pattern removes only the first
occurrence of the newline; recursion on the character list. -/
def removeFirst : List Char → List Char
  | [] => []
  | c :: rest => if c = '\n' then rest else c :: removeFirst rest

/-- `clean` from the SSH module: drop the first newline of the raw output. -/
def clean (s : String) : String := ⟨removeFirst s.data⟩

/-- The JS test of starting with the one-character prefix slash: look at the
first character. -/
def startsWithSlash (path : String) : Bool :=
  match path.data with
  | [] => false
  | c :: _ => c = '/'

/-- `absolutePath`: a working path not starting with a slash is rewritten
relative to the remote home directory. -/
def absolutePath (path : String) : String :=
  if ¬ startsWithSlash path then "~/" ++ path else path

/-- The exception classes the SSH module can reject with, as a closed variant
type.  The first four non-`typeError` kinds are the Error Classifier's;
`networkError` is the decode failure raised by `push`; `typeError` models the
JS TypeError raised when `this.connection` is undefined. -/
inductive RejectKind where
  | typeError : RejectKind
  | unexpectedNetworkError : RejectKind
  | componentNotFound (id : String) : RejectKind
  | permissionDenied : RejectKind
  | remoteScopeNotFound : RejectKind
  | networkError (payload : String) : RejectKind
deriving DecidableEq

/-- JS `a || b` where `a` is an optional string: absent or empty falls
through to `b`. -/
def jsOr (a : Option String) (b : String) : String :=
  match a with
  | none => b
  | some s => if s = "" then b else s

/-- The `err` value handed to the exec callback: a numeric code and an
optional remote-reported id. -/
structure ErrObj where
  code : Nat
  id : Option String

/-- The third callback argument `o`, carrying the completion status. -/
structure OutObj where
  code : Nat

/-- `errorHandler`: switch on `err.code`, defaulting to
`UnexpectedNetworkError`. -/
def errorHandler (err : ErrObj) (optionalId : String) : RejectKind :=
  if err.code = 127 then .componentNotFound (jsOr err.id optionalId)
  else if err.code = 128 then .permissionDenied
  else if err.code = 129 then .remoteScopeNotFound
  else if err.code = 130 then .permissionDenied
  else .unexpectedNetworkError

/-- `buildCmd`: prefix the tool name, then the command name, then each
argument base64-encoded and space-joined. -/
def buildCmd (commandName : String) (args : List String) : String :=
  "bit " ++ commandName ++ " " ++ String.intercalate " " (args.map toBase64)

/-- The command line exactly as the spec's data model words it, with no
tool-name prefix: the operation name, then the base64-encoded working path
and each further argument base64-encoded, space-joined.  Stated from the
spec for comparison with `buildCmd` (the working path is expected at the
head of `args`). -/
def claimedCmdLine (commandName : String) (args : List String) : String :=
  commandName ++ " " ++ String.intercalate " " (args.map toBase64)

/-- The sequest connection handle: a pure response oracle giving the three
callback arguments for a command line, plus whether `end()` was called. -/
structure Conn where
  respond : String → Option ErrObj × String × Option OutObj
  ended : Bool

/-- The SSH client state: endpoint fields plus the mutable `connection`
field, `none` when no connection was ever opened. -/
structure SSH where
  path : String
  username : String
  port : Nat
  host : String
  connection : Option Conn

/-- The body of the exec callback: no `o` at all rejects with
`UnexpectedNetworkError`; an `err` together with a truthy (non-zero) `o.code`
rejects via `errorHandler` (passing the raw output as the optional id);
otherwise resolve with the cleaned output. -/
def execOutcome (err : Option ErrObj) (res : String) (o : Option OutObj) :
    Except RejectKind String :=
  match o with
  | none => .error .unexpectedNetworkError
  | some out =>
    match err with
    | some e =>
        if out.code ≠ 0 then .error (errorHandler e res) else .ok (clean res)
    | none => .ok (clean res)

/-- `exec`: build the command line (working path normalized and prepended to
the arguments) and run it through the connection; invoking an absent
connection is the JS TypeError. -/
def SSH.exec (s : SSH) (commandName : String) (args : List String) :
    Except RejectKind String :=
  match s.connection with
  | none => .error .typeError
  | some c =>
    let r := c.respond (buildCmd commandName (absolutePath s.path :: args))
    execOutcome r.1 r.2.1 r.2.2

/-- `close`: calls `end()` on the connection field; on a never-opened client
this dereferences `undefined` (a JS TypeError). -/
def SSH.close (s : SSH) : Except RejectKind SSH :=
  match s.connection with
  | none => .error .typeError
  | some c => .ok { s with connection := some { c with ended := true } }

/-- `composeConnectionUrl`. -/
def SSH.composeConnectionUrl (s : SSH) : String :=
  s.username ++ "@" ++ s.host ++ ":" ++ toString s.port

/-- `connect`: call `sequest.connect` inside try/catch, rejecting with a
thrown error and otherwise storing the handle and resolving with the client.
The external `sequest.connect` (with `keyGetter`) is an oracle parameter:
it throws exactly when authentication or network setup fails. -/
def SSH.connect (s : SSH) (sequestConnect : String → Except RejectKind Conn) :
    Except RejectKind SSH :=
  match sequestConnect s.composeConnectionUrl with
  | .error e => .error e
  | .ok c => .ok { s with connection := some c }

/-- Modelled from the spec: `unpack` from `src/cli/cli-utils` is not under
`src/`; the spec leaves the exact multi-item framing open (§9) and it is
modelled as splitting the payload on a fixed delimiter character, one
outside the base64 alphabet. -/
def unpackDelim : Char := '#'

/-- Split a character list on a delimiter character. -/
def splitOnChar (d : Char) : List Char → List (List Char)
  | [] => [[]]
  | x :: xs =>
    if x = d then [] :: splitOnChar d xs
    else
      match splitOnChar d xs with
      | [] => [[x]]
      | y :: ys => (x :: y) :: ys

/-- Modelled from the spec: split a combined payload into its items. -/
def unpack (s : String) : List String :=
  (splitOnChar unpackDelim s.data).map String.mk

/-- Whether a character pattern occurs contiguously inside a list; used to
state that an encoded token does not appear on a built command line. -/
def containsSeg (pat : List Char) : List Char → Bool
  | [] => decide (pat = [])
  | x :: xs => pat.isPrefixOf (x :: xs) || containsSeg pat xs

/-- Collaborator domain object `ComponentObjects`: opaque payload per the
spec's string-in/string-out (de)serialization contract. -/
structure ComponentObjects where
  raw : String
deriving DecidableEq

/-- Collaborator domain object `ConsumerComponent`. -/
structure ConsumerComponent where
  raw : String
deriving DecidableEq

/-- Collaborator scope metadata produced by parsing the decoded payload. -/
structure ScopeDescriptor where
  fields : List (String × String)
deriving DecidableEq

/-- The continuation `push` runs on the exec outcome: base64-decode the
echoed response and re-deserialize it, raising `NetworkError` (carrying the
raw response) when the collaborator deserializer fails. -/
def pushHandle (deser : String → Option ComponentObjects)
    (execResult : Except RejectKind String) : Except RejectKind ComponentObjects :=
  match execResult with
  | .error e => .error e
  | .ok str =>
    match deser (fromBase64 str) with
    | some o => .ok o
    | none => .error (.networkError str)

/-- `push`: send the serialized objects as the single argument of `_put`. -/
def SSH.push (s : SSH) (deser : String → Option ComponentObjects)
    (serialized : String) : Except RejectKind ComponentObjects :=
  pushHandle deser (s.exec "_put" [serialized])

/-- The `describeScope` pipeline on the exec outcome: parse the decoded
payload, and collapse every failure into `RemoteScopeNotFound`. -/
def describeScopeHandle (jsonParse : String → Option ScopeDescriptor)
    (execResult : Except RejectKind String) : Except RejectKind ScopeDescriptor :=
  match execResult with
  | .error _ => .error .remoteScopeNotFound
  | .ok data =>
    match jsonParse (fromBase64 data) with
    | some v => .ok v
    | none => .error .remoteScopeNotFound

/-- `describeScope`: send `_scope` and decode the single payload item. -/
def SSH.describeScope (s : SSH) (jsonParse : String → Option ScopeDescriptor) :
    Except RejectKind ScopeDescriptor :=
  describeScopeHandle jsonParse (s.exec "_scope" [])

/-- The `list` continuation: unpack, map each truthy item through the
collaborator deserializer (falsy items become nil), and reject nils. -/
def listHandle (deser : String → Option ConsumerComponent) (str : String) :
    List ConsumerComponent :=
  (((unpack str).map fun c => if c = "" then none else deser c).filterMap id)

/-- `list`: send `_list` and filter the unpacked payload. -/
def SSH.list (s : SSH) (deser : String → Option ConsumerComponent) :
    Except RejectKind (List ConsumerComponent) :=
  Except.map (listHandle deser) (s.exec "_list" [])

/-- The `show` continuation: an empty (falsy) payload yields null, otherwise
the unpacked payload is handed to the collaborator deserializer. -/
def showHandle (deser : List String → Option ConsumerComponent) (str : String) :
    Option ConsumerComponent :=
  if str = "" then none else deser (unpack str)

/-- `show`: send `_show` with the id's canonical string form. -/
def SSH.show (s : SSH) (deser : List String → Option ConsumerComponent)
    (idStr : String) : Except RejectKind (Option ConsumerComponent) :=
  Except.map (showHandle deser) (s.exec "_show" [idStr])

/-- The command name `fetch` passes to `exec`: the fetch operation token,
a space, and then the options string, which is the plain flag `-n` when
noDeps is set and empty otherwise. -/
def fetchCommandName (noDeps : Bool) : String :=
  "_fetch " ++ (if noDeps then "-n" else "")

/-- The `fetch` continuation: unpack and deserialize each item positionally;
there is no nil filtering. -/
def fetchHandle (deser : String → Option ComponentObjects) (str : String) :
    List (Option ComponentObjects) :=
  (unpack str).map deser

/-- `fetch`: send `_fetch` (with the flag folded into the command name) and
the canonical id strings. -/
def SSH.fetch (s : SSH) (deser : String → Option ComponentObjects)
    (ids : List String) (noDeps : Bool) :
    Except RejectKind (List (Option ComponentObjects)) :=
  Except.map (fetchHandle deser) (s.exec (fetchCommandName noDeps) ids)

theorem dVal_b64Char : ∀ n, n < 64 → dVal (b64Char n) = n := by decide

theorem b64Char_mem (n : Nat) : b64Char n ∈ base64Chars := by
  unfold b64Char List.getD
  cases h : base64Chars.get? n with
  | none => simp [Option.getD]; decide
  | some c => simpa [Option.getD] using List.get?_mem h

theorem b64Char_ne_pad : ∀ n, n < 64 → b64Char n ≠ '=' := by decide

theorem b64Char_ne_newline (n : Nat) : b64Char n ≠ '\n' := by
  intro h
  have := b64Char_mem n
  rw [h] at this
  revert this
  decide

theorem decodeChunks_encodeChunks :
    ∀ bs : List Nat, (∀ b ∈ bs, b < 256) → decodeChunks (encodeChunks bs) = bs
  | [], _ => rfl
  | [b1], h => by
    have hb1 : b1 < 256 := h b1 (by simp)
    have h1 := dVal_b64Char (b1 / 4) (by omega)
    have h2 := dVal_b64Char (b1 % 4 * 16) (by omega)
    simp only [encodeChunks, decodeChunks, if_pos rfl, h1, h2, if_true]
    have : b1 / 4 * 4 + b1 % 4 * 16 / 16 = b1 := by omega
    rw [this]
  | [b1, b2], h => by
    have hb1 : b1 < 256 := h b1 (by simp)
    have hb2 : b2 < 256 := h b2 (by simp)
    have h1 := dVal_b64Char (b1 / 4) (by omega)
    have h2 := dVal_b64Char (b1 % 4 * 16 + b2 / 16) (by omega)
    have h3 := dVal_b64Char (b2 % 16 * 4) (by omega)
    have hne := b64Char_ne_pad (b2 % 16 * 4) (by omega)
    simp only [encodeChunks, decodeChunks, if_neg hne, if_pos rfl, h1, h2, h3]
    have e1 : b1 / 4 * 4 + (b1 % 4 * 16 + b2 / 16) / 16 = b1 := by omega
    have e2 : (b1 % 4 * 16 + b2 / 16) % 16 * 16 + b2 % 16 * 4 / 4 = b2 := by omega
    rw [e1, e2]
    simp
  | b1 :: b2 :: b3 :: r1 :: rest, h => by
    have hb1 : b1 < 256 := h b1 (by simp)
    have hb2 : b2 < 256 := h b2 (by simp)
    have hb3 : b3 < 256 := h b3 (by simp)
    have h1 := dVal_b64Char (b1 / 4) (by omega)
    have h2 := dVal_b64Char (b1 % 4 * 16 + b2 / 16) (by omega)
    have h3 := dVal_b64Char (b2 % 16 * 4 + b3 / 64) (by omega)
    have h4 := dVal_b64Char (b3 % 64) (by omega)
    have hne3 := b64Char_ne_pad (b2 % 16 * 4 + b3 / 64) (by omega)
    have hne4 := b64Char_ne_pad (b3 % 64) (by omega)
    have ih := decodeChunks_encodeChunks (r1 :: rest)
      (fun b hb => h b (by simp at hb ⊢; tauto))
    simp only [encodeChunks, decodeChunks, if_neg hne3, if_neg hne4, h1, h2, h3, h4, ih]
    have e1 : b1 / 4 * 4 + (b1 % 4 * 16 + b2 / 16) / 16 = b1 := by omega
    have e2 : (b1 % 4 * 16 + b2 / 16) % 16 * 16 + (b2 % 16 * 4 + b3 / 64) / 4 = b2 := by
      omega
    have e3 : (b2 % 16 * 4 + b3 / 64) % 4 * 64 + b3 % 64 = b3 := by omega
    rw [e1, e2, e3]
  | [b1, b2, b3], h => by
    have hb1 : b1 < 256 := h b1 (by simp)
    have hb2 : b2 < 256 := h b2 (by simp)
    have hb3 : b3 < 256 := h b3 (by simp)
    have h1 := dVal_b64Char (b1 / 4) (by omega)
    have h2 := dVal_b64Char (b1 % 4 * 16 + b2 / 16) (by omega)
    have h3 := dVal_b64Char (b2 % 16 * 4 + b3 / 64) (by omega)
    have h4 := dVal_b64Char (b3 % 64) (by omega)
    have hne3 := b64Char_ne_pad (b2 % 16 * 4 + b3 / 64) (by omega)
    have hne4 := b64Char_ne_pad (b3 % 64) (by omega)
    simp only [encodeChunks, decodeChunks, if_neg hne3, if_neg hne4, h1, h2, h3, h4]
    have e1 : b1 / 4 * 4 + (b1 % 4 * 16 + b2 / 16) / 16 = b1 := by omega
    have e2 : (b1 % 4 * 16 + b2 / 16) % 16 * 16 + (b2 % 16 * 4 + b3 / 64) / 4 = b2 := by
      omega
    have e3 : (b2 % 16 * 4 + b3 / 64) % 4 * 64 + b3 % 64 = b3 := by omega
    rw [e1, e2, e3]

theorem fromBase64_toBase64 (s : String) (h : ∀ c ∈ s.data, c.toNat < 256) :
    fromBase64 (toBase64 s) = s := by
  unfold fromBase64 toBase64
  rw [decodeChunks_encodeChunks (s.data.map Char.toNat)
    (by intro b hb; obtain ⟨c, hc, rfl⟩ := List.mem_map.mp hb; exact h c hc)]
  cases s with
  | mk data =>
    congr 1
    rw [List.map_map]
    simp only [Function.comp_def, Char.ofNat_toNat, List.map_id']

theorem removeFirst_append (a b : List Char) (ha : '\n' ∉ a) :
    removeFirst (a ++ '\n' :: b) = a ++ b := by
  induction a with
  | nil => simp [removeFirst]
  | cons c cs ih =>
    rw [List.mem_cons, not_or] at ha
    simp only [List.cons_append, List.append_eq, removeFirst,
      if_neg (Ne.symm ha.1), ih ha.2]

theorem removeFirst_length (l : List Char) (h : '\n' ∈ l) :
    (removeFirst l).length + 1 = l.length := by
  induction l with
  | nil => cases h
  | cons c cs ih =>
    by_cases hc : c = '\n'
    · subst hc; simp [removeFirst]
    · have hcs : '\n' ∈ cs := by
        rcases List.mem_cons.mp h with h1 | h1
        · exact absurd h1.symm hc
        · exact h1
      simp only [removeFirst, if_neg hc, List.length_cons]
      rw [← ih hcs]

theorem removeFirst_of_not_mem (l : List Char) (h : '\n' ∉ l) :
    removeFirst l = l := by
  induction l with
  | nil => rfl
  | cons c cs ih =>
    rw [List.mem_cons, not_or] at h
    simp only [removeFirst, if_neg (Ne.symm h.1), ih h.2]

theorem newline_not_mem_encodeChunks : ∀ bs : List Nat, '\n' ∉ encodeChunks bs
  | [] => by simp [encodeChunks]
  | [b1] => by
    simp only [encodeChunks, List.mem_cons, List.not_mem_nil, or_false]
    push_neg
    exact ⟨(b64Char_ne_newline _).symm, (b64Char_ne_newline _).symm,
      by decide, by decide⟩
  | [b1, b2] => by
    simp only [encodeChunks, List.mem_cons, List.not_mem_nil, or_false]
    push_neg
    exact ⟨(b64Char_ne_newline _).symm, (b64Char_ne_newline _).symm,
      (b64Char_ne_newline _).symm, by decide⟩
  | b1 :: b2 :: b3 :: rest => by
    simp only [encodeChunks, List.mem_cons, not_or]
    exact ⟨(b64Char_ne_newline _).symm, (b64Char_ne_newline _).symm,
      (b64Char_ne_newline _).symm, (b64Char_ne_newline _).symm,
      newline_not_mem_encodeChunks rest⟩

theorem clean_toBase64 (s : String) : clean (toBase64 s) = toBase64 s := by
  show String.mk (removeFirst (encodeChunks (s.data.map Char.toNat))) = _
  rw [removeFirst_of_not_mem _ (newline_not_mem_encodeChunks _)]
  rfl

theorem clean_of_no_newline (s : String) (h : '\n' ∉ s.data) : clean s = s := by
  cases s with
  | mk data =>
    show String.mk (removeFirst data) = _
    rw [removeFirst_of_not_mem data h]

/-- C1: every completion outcome is classified to exactly one error kind by
the fixed table: a missing outcome object (no output at all) rejects with
`UnexpectedNetworkError`; status 127 gives `ComponentNotFound` whose id is
the remote-reported id when truthy, else the id the caller of `errorHandler`
supplied; 128 and 130 give `PermissionDenied`; 129 gives
`RemoteScopeNotFound`; every other status falls to the
`UnexpectedNetworkError` default. -/
theorem claim1_error_classifier (err : ErrObj) (optionalId res : String)
    (e : Option ErrObj) :
    execOutcome e res none = .error .unexpectedNetworkError ∧
    (err.code = 127 →
      errorHandler err optionalId = .componentNotFound (jsOr err.id optionalId)) ∧
    (err.code = 128 → errorHandler err optionalId = .permissionDenied) ∧
    (err.code = 129 → errorHandler err optionalId = .remoteScopeNotFound) ∧
    (err.code = 130 → errorHandler err optionalId = .permissionDenied) ∧
    (err.code ≠ 127 → err.code ≠ 128 → err.code ≠ 129 → err.code ≠ 130 →
      errorHandler err optionalId = .unexpectedNetworkError) := by
  refine ⟨rfl, ?_, ?_, ?_, ?_, ?_⟩
  · intro h; simp [errorHandler, h]
  · intro h; simp [errorHandler, h]
  · intro h; simp [errorHandler, h]
  · intro h; simp [errorHandler, h]
  · intro h1 h2 h3 h4; simp [errorHandler, h1, h2, h3, h4]

theorem claim1_error_classifier_witness :
    errorHandler ⟨127, none⟩ "caller/id@1" = .componentNotFound "caller/id@1" ∧
    errorHandler ⟨129, some "remote"⟩ "x" = .remoteScopeNotFound ∧
    errorHandler ⟨1, none⟩ "x" = .unexpectedNetworkError ∧
    execOutcome none "out" none = .error .unexpectedNetworkError := by
  have h127 := claim1_error_classifier ⟨127, none⟩ "caller/id@1" "" none
  have h129 := claim1_error_classifier ⟨129, some "remote"⟩ "x" "" none
  have h1 := claim1_error_classifier ⟨1, none⟩ "x" "out" none
  exact ⟨h127.2.1 rfl, h129.2.2.2.1 rfl,
    h1.2.2.2.2.2 (by decide) (by decide) (by decide) (by decide), h1.1⟩

/-- C10: before resolving, exec deletes only the first newline of the raw
output: a response written as a newline-free prefix, one newline, and an
arbitrary tail resolves as prefix plus tail (later newlines intact); a
response containing a newline is never surfaced verbatim; and the success
path of the callback resolves exactly `clean` of the raw output. -/
theorem claim10_clean_first_newline (a b : List Char) (ha : '\n' ∉ a)
    (s res : String) (hs : '\n' ∈ s.data) (o : OutObj) :
    clean ⟨a ++ '\n' :: b⟩ = ⟨a ++ b⟩ ∧
    clean s ≠ s ∧
    execOutcome none res (some o) = .ok (clean res) := by
  refine ⟨?_, ?_, rfl⟩
  · show String.mk (removeFirst (a ++ '\n' :: b)) = _
    rw [removeFirst_append a b ha]
  · intro hcontra
    have hdata : removeFirst s.data = s.data := by
      cases s with
      | mk data => exact congrArg String.data hcontra
    have := removeFirst_length s.data hs
    rw [hdata] at this
    omega

theorem claim10_witness :
    clean ⟨"ab".data ++ '\n' :: "cd\nef".data⟩ = ⟨"ab".data ++ "cd\nef".data⟩ ∧
    clean "x\ny" ≠ "x\ny" := by
  have h := claim10_clean_first_newline "ab".data "cd\nef".data (by decide)
    "x\ny" "" (by decide) ⟨0⟩
  exact ⟨h.1, h.2.1⟩

/-- C3 counterexample: the claim says the command line is the operation name
followed by the encoded arguments; the code prefixes the tool name `bit`,
so the built line differs from the claimed form already for `_list` with
working path `s`. -/
theorem claim3_counterexample :
    buildCmd "_list" [absolutePath "s"] ≠ claimedCmdLine "_list" [absolutePath "s"] := by
  decide

/-- C3 (amended): every argument, the working path included, is base64
encoded independently and reversibly, the working path is normalized first
(prefixed by the remote home unless absolute), and the built command line is
the fixed tool name `bit` followed by the claimed form: operation name,
encoded working path, then each encoded argument, space-joined. -/
theorem claim3_amended (commandName path : String) (args : List String)
    (hpath : ∀ c ∈ (absolutePath path).data, c.toNat < 256)
    (hargs : ∀ a ∈ args, ∀ c ∈ a.data, c.toNat < 256) :
    buildCmd commandName (absolutePath path :: args) =
      "bit " ++ claimedCmdLine commandName (absolutePath path :: args) ∧
    (¬ startsWithSlash path → absolutePath path = "~/" ++ path) ∧
    (startsWithSlash path → absolutePath path = path) ∧
    fromBase64 (toBase64 (absolutePath path)) = absolutePath path ∧
    (∀ a ∈ args, fromBase64 (toBase64 a) = a) := by
  refine ⟨?_, ?_, ?_, ?_, ?_⟩
  · simp [buildCmd, claimedCmdLine, String.append_assoc]
  · intro h; simp [absolutePath, h]
  · intro h; simp [absolutePath, h]
  · exact fromBase64_toBase64 _ hpath
  · intro a hamem; exact fromBase64_toBase64 a (hargs a hamem)

theorem claim3_amended_witness :
    buildCmd "_list" [absolutePath "scope dir"] =
      "bit " ++ claimedCmdLine "_list" [absolutePath "scope dir"] ∧
    absolutePath "scope dir" = "~/scope dir" ∧
    absolutePath "/var/scope" = "/var/scope" ∧
    fromBase64 (toBase64 (absolutePath "scope dir")) = absolutePath "scope dir" := by
  have h := claim3_amended "_list" "scope dir" [] (by decide)
    (by intro a ha; cases ha)
  have habs := claim3_amended "_list" "/var/scope" [] (by decide)
    (by intro a ha; cases ha)
  exact ⟨h.1, h.2.1 (by decide), habs.2.2.1 (by decide), h.2.2.2.1⟩

/-- C2 counterexample: the claim wants the no-dependencies flag token on the
command line in base64; the code folds the plain `-n` into the command name,
so the built line (here for working path `foo`) contains no occurrence of
`LW4=`, the base64 encoding of the flag token `-n`. -/
theorem claim2_counterexample :
    buildCmd (fetchCommandName true) [absolutePath "foo", "a/b@1.0.0"] =
      "bit _fetch -n fi9mb28= YS9iQDEuMC4w" ∧
    toBase64 "-n" = "LW4=" ∧
    containsSeg "LW4=".data "bit _fetch -n fi9mb28= YS9iQDEuMC4w".data = false := by
  refine ⟨by decide, by decide, by decide⟩

/-- C2 (amended): fetching the single id with noDependencies builds the line
`bit _fetch -n` followed by the encoded working path and the encoded id (the
flag rides unencoded inside the command name), and a successful payload that
unpacks to a single valid item yields exactly one deserialized bundle. -/
theorem claim2_amended (s : SSH) (c : Conn)
    (deser : String → Option ComponentObjects) (resStr item : String)
    (co : ComponentObjects)
    (hconn : s.connection = some c)
    (hresp : c.respond (buildCmd (fetchCommandName true)
      [absolutePath s.path, "a/b@1.0.0"]) = (none, resStr, some ⟨0⟩))
    (hnl : '\n' ∉ resStr.data)
    (hunpack : unpack resStr = [item])
    (hdeser : deser item = some co) :
    buildCmd (fetchCommandName true) [absolutePath s.path, "a/b@1.0.0"] =
      "bit _fetch -n " ++ toBase64 (absolutePath s.path) ++ " " ++
        toBase64 "a/b@1.0.0" ∧
    s.fetch deser ["a/b@1.0.0"] true = .ok [some co] := by
  constructor
  · rw [show buildCmd (fetchCommandName true) [absolutePath s.path, "a/b@1.0.0"] =
      "bit " ++ "_fetch -n" ++ " " ++
        (toBase64 (absolutePath s.path) ++ " " ++ toBase64 "a/b@1.0.0") from rfl]
    simp [String.append_assoc]
  · unfold SSH.fetch SSH.exec
    rw [hconn]
    simp only [hresp, execOutcome]
    rw [clean_of_no_newline resStr hnl]
    simp [Except.map, fetchHandle, hunpack, hdeser]

theorem claim2_amended_witness :
    SSH.fetch
      ⟨"foo", "u", 22, "h", some ⟨fun _ => (none, "payload", some ⟨0⟩), false⟩⟩
      (fun t => if t = "payload" then some ⟨"payload"⟩ else none)
      ["a/b@1.0.0"] true = .ok [some ⟨"payload"⟩] ∧
    buildCmd (fetchCommandName true) [absolutePath "foo", "a/b@1.0.0"] =
      "bit _fetch -n " ++ toBase64 (absolutePath "foo") ++ " " ++
        toBase64 "a/b@1.0.0" := by
  have h := claim2_amended
    ⟨"foo", "u", 22, "h", some ⟨fun _ => (none, "payload", some ⟨0⟩), false⟩⟩
    ⟨fun _ => (none, "payload", some ⟨0⟩), false⟩
    (fun t => if t = "payload" then some ⟨"payload"⟩ else none)
    "payload" "payload" ⟨"payload"⟩ rfl rfl (by decide) (by decide) (by decide)
  exact ⟨h.2, h.1⟩

/-- C4: when the remote echoes back the base64 of the serialized objects,
push returns the objects (given the collaborator round-trip on them);
when the echoed text does not re-deserialize, push rejects with the
transport-level `NetworkError` carrying the response, a kind distinct from
all four Error Classifier kinds. -/
theorem claim4_push (s₁ s₂ : SSH) (c₁ c₂ : Conn)
    (deser : String → Option ComponentObjects) (ser : ComponentObjects → String)
    (o : ComponentObjects) (serialized res2 : String)
    (h1conn : s₁.connection = some c₁)
    (h1resp : c₁.respond (buildCmd "_put" [absolutePath s₁.path, ser o]) =
      (none, toBase64 (ser o), some ⟨0⟩))
    (hbytes : ∀ ch ∈ (ser o).data, ch.toNat < 256)
    (hdeser : deser (ser o) = some o)
    (h2conn : s₂.connection = some c₂)
    (h2resp : c₂.respond (buildCmd "_put" [absolutePath s₂.path, serialized]) =
      (none, res2, some ⟨0⟩))
    (hbad : deser (fromBase64 (clean res2)) = none) :
    s₁.push deser (ser o) = .ok o ∧
    s₂.push deser serialized = .error (.networkError (clean res2)) ∧
    (∀ p id, RejectKind.networkError p ≠ .unexpectedNetworkError ∧
      RejectKind.networkError p ≠ .componentNotFound id ∧
      RejectKind.networkError p ≠ .permissionDenied ∧
      RejectKind.networkError p ≠ .remoteScopeNotFound) := by
  refine ⟨?_, ?_, ?_⟩
  · unfold SSH.push SSH.exec
    rw [h1conn]
    simp only [h1resp, execOutcome]
    rw [clean_toBase64, pushHandle]
    simp [fromBase64_toBase64 (ser o) hbytes, hdeser]
  · unfold SSH.push SSH.exec
    rw [h2conn]
    simp only [h2resp, execOutcome]
    simp [pushHandle, hbad]
  · intro p id
    refine ⟨?_, ?_, ?_, ?_⟩ <;> intro h <;> cases h

theorem claim4_push_witness :
    SSH.push
      ⟨"p", "u", 22, "h", some ⟨fun _ => (none, toBase64 "obj", some ⟨0⟩), false⟩⟩
      (fun t => if t = "obj" then some ⟨"obj"⟩ else none) "obj" = .ok ⟨"obj"⟩ ∧
    SSH.push
      ⟨"p", "u", 22, "h", some ⟨fun _ => (none, "????", some ⟨0⟩), false⟩⟩
      (fun t => if t = "obj" then some ⟨"obj"⟩ else none) "x" =
        .error (.networkError "????") := by
  have h := claim4_push
    ⟨"p", "u", 22, "h", some ⟨fun _ => (none, toBase64 "obj", some ⟨0⟩), false⟩⟩
    ⟨"p", "u", 22, "h", some ⟨fun _ => (none, "????", some ⟨0⟩), false⟩⟩
    ⟨fun _ => (none, toBase64 "obj", some ⟨0⟩), false⟩
    ⟨fun _ => (none, "????", some ⟨0⟩), false⟩
    (fun t => if t = "obj" then some ⟨"obj"⟩ else none)
    (fun co => co.raw) ⟨"obj"⟩ "x" "????"
    rfl rfl (by decide) (by decide) rfl rfl (by decide)
  refine ⟨h.1, ?_⟩
  have h2 := h.2.1
  rwa [show clean "????" = "????" from clean_of_no_newline _ (by decide)] at h2

/-- C5: describeScope collapses every failure — a rejected exec of any kind,
including the absent-connection TypeError, as well as a payload whose decoded
text fails to parse — into `RemoteScopeNotFound`, and on success decodes the
single payload item into the structured scope metadata. -/
theorem claim5_describeScope (s : SSH)
    (jsonParse : String → Option ScopeDescriptor)
    (r : Except RejectKind String) (e : RejectKind) (data : String)
    (v : ScopeDescriptor) :
    (r = .error e → describeScopeHandle jsonParse r = .error .remoteScopeNotFound) ∧
    (r = .ok data → jsonParse (fromBase64 data) = none →
      describeScopeHandle jsonParse r = .error .remoteScopeNotFound) ∧
    (r = .ok data → jsonParse (fromBase64 data) = some v →
      describeScopeHandle jsonParse r = .ok v) ∧
    (s.connection = none →
      s.describeScope jsonParse = .error .remoteScopeNotFound) := by
  refine ⟨?_, ?_, ?_, ?_⟩
  · intro h; subst h; rfl
  · intro h hp; subst h; simp [describeScopeHandle, hp]
  · intro h hp; subst h; simp [describeScopeHandle, hp]
  · intro h
    unfold SSH.describeScope SSH.exec
    rw [h]
    rfl

theorem claim5_describeScope_witness :
    describeScopeHandle (fun _ => none) (.error .permissionDenied) =
      .error .remoteScopeNotFound ∧
    describeScopeHandle (fun _ => none) (.ok "garbage") =
      .error .remoteScopeNotFound ∧
    describeScopeHandle (fun t => some ⟨[("name", t)]⟩) (.ok (toBase64 "sc")) =
      .ok ⟨[("name", "sc")]⟩ ∧
    SSH.describeScope ⟨"p", "u", 22, "h", none⟩ (fun _ => none) =
      .error .remoteScopeNotFound := by
  have h1 := claim5_describeScope ⟨"p", "u", 22, "h", none⟩ (fun _ => none)
    (.error .permissionDenied) .permissionDenied "garbage" ⟨[]⟩
  have h2 := claim5_describeScope ⟨"p", "u", 22, "h", none⟩ (fun _ => none)
    (.ok "garbage") .permissionDenied "garbage" ⟨[]⟩
  have h3 := claim5_describeScope ⟨"p", "u", 22, "h", none⟩
    (fun t => some ⟨[("name", t)]⟩) (.ok (toBase64 "sc")) .permissionDenied
    (toBase64 "sc") ⟨[("name", "sc")]⟩
  exact ⟨h1.1 rfl, h2.2.1 rfl rfl,
    h3.2.2.1 rfl (by rw [fromBase64_toBase64 "sc" (by decide)]),
    h1.2.2.2 rfl⟩

theorem map_some_filterMap_sublist {α : Type} (l : List (Option α)) :
    ((l.filterMap id).map some).Sublist l := by
  induction l with
  | nil => simp
  | cons x t ih =>
    cases x with
    | none => simpa [List.filterMap_cons] using ih.cons none
    | some a => simpa [List.filterMap_cons] using ih.cons₂ (some a)

theorem filterMap_id_length {α : Type} (l : List (Option α)) :
    (l.filterMap id).length = l.countP (fun x => x.isSome) := by
  induction l with
  | nil => rfl
  | cons x t ih =>
    cases x with
    | none => simp [List.filterMap_cons, List.countP_cons, ih]
    | some a => simp [List.filterMap_cons, List.countP_cons, ih]

/-- C6 counterexample: fetch performs no nil filtering, so a payload with one
valid and one invalid item surfaces the nil to the caller, against the
claim that nils are dropped for both list and fetch. -/
theorem claim6_counterexample :
    none ∈ fetchHandle
      (fun t => if t = "bad" then none else some ⟨t⟩) "good#bad" := by
  decide

/-- C6 (amended): for list the returned components are exactly the non-nil
decodes in their payload order (their image under some is a sublist of the
decoded options, with length the number of non-nil decodes, and each comes
from a truthy payload item); fetch instead deserializes positionally with no
filtering, returning one entry per payload item. -/
theorem claim6_amended (deser : String → Option ConsumerComponent)
    (deserCO : String → Option ComponentObjects) (str : String) :
    ((listHandle deser str).map some).Sublist
      ((unpack str).map fun c => if c = "" then none else deser c) ∧
    (listHandle deser str).length =
      ((unpack str).map fun c => if c = "" then none else deser c).countP
        (fun x => x.isSome) ∧
    (∀ x ∈ listHandle deser str, ∃ c ∈ unpack str, c ≠ "" ∧ deser c = some x) ∧
    fetchHandle deserCO str = (unpack str).map deserCO ∧
    (fetchHandle deserCO str).length = (unpack str).length := by
  refine ⟨map_some_filterMap_sublist _, filterMap_id_length _, ?_, rfl, by
    simp [fetchHandle]⟩
  intro x hx
  unfold listHandle at hx
  rw [List.mem_filterMap] at hx
  obtain ⟨a, ha, hax⟩ := hx
  simp only [id_eq] at hax
  rw [List.mem_map] at ha
  obtain ⟨c, hc, hca⟩ := ha
  refine ⟨c, hc, ?_⟩
  by_cases hce : c = ""
  · rw [if_pos hce] at hca
    rw [← hca] at hax
    cases hax
  · rw [if_neg hce] at hca
    exact ⟨hce, by rw [hca, hax]⟩

theorem claim6_amended_witness :
    ∃ c ∈ unpack "good#bad", c ≠ "" ∧
      (fun t => if t = "bad" then none else some (⟨t⟩ : ConsumerComponent)) c =
        some ⟨"good"⟩ := by
  have h := claim6_amended (fun t => if t = "bad" then none else some ⟨t⟩)
    (fun t => some ⟨t⟩) "good#bad"
  exact h.2.2.1 ⟨"good"⟩ (by decide)

/-- C7 counterexample: close on a never-opened client dereferences the
undefined connection field and raises a TypeError, against the claim that
close is safe on a never-opened Connection. -/
theorem claim7_counterexample :
    SSH.close ⟨"p", "u", 22, "h", none⟩ = .error .typeError := rfl

/-- C7 (amended): close on an opened client succeeds and a second close
succeeds again; close on a never-opened client raises a TypeError, and exec
with no connection ever opened rejects with the same TypeError, which is
distinct from every remote and network failure kind; after a close the
connection field is still populated, so a later exec is delegated to the
underlying library with no repo-level usage check. -/
theorem claim7_amended (s : SSH) (c : Conn) (cmd : String) (args : List String) :
    (s.connection = some c → ∃ s₁, s.close = .ok s₁ ∧ ∃ s₂, s₁.close = .ok s₂) ∧
    (s.connection = none → s.close = .error .typeError) ∧
    (s.connection = none → s.exec cmd args = .error .typeError) ∧
    RejectKind.typeError ≠ .unexpectedNetworkError ∧
    RejectKind.typeError ≠ .permissionDenied ∧
    RejectKind.typeError ≠ .remoteScopeNotFound ∧
    (∀ id, RejectKind.typeError ≠ .componentNotFound id) ∧
    (∀ p, RejectKind.typeError ≠ .networkError p) ∧
    (s.connection = some c → ∀ s₁, s.close = .ok s₁ → s₁.connection.isSome) := by
  refine ⟨?_, ?_, ?_, by decide, by decide, by decide, ?_, ?_, ?_⟩
  · intro h
    refine ⟨{ s with connection := some { c with ended := true } }, ?_,
      { s with connection := some { c with ended := true } }, ?_⟩ <;>
      simp [SSH.close, h]
  · intro h; simp [SSH.close, h]
  · intro h; simp [SSH.exec, h]
  · intro i h; exact RejectKind.noConfusion h
  · intro p h; exact RejectKind.noConfusion h
  · intro h s₁ hs₁
    simp only [SSH.close, h] at hs₁
    cases hs₁
    rfl

theorem claim7_amended_witness :
    (∃ s₁, SSH.close
      ⟨"p", "u", 22, "h", some ⟨fun _ => (none, "", some ⟨0⟩), false⟩⟩ =
        .ok s₁ ∧ ∃ s₂, s₁.close = .ok s₂) ∧
    SSH.close ⟨"q", "u", 22, "h", none⟩ = .error .typeError ∧
    SSH.exec ⟨"q", "u", 22, "h", none⟩ "_list" [] = .error .typeError := by
  have hopen := claim7_amended
    ⟨"p", "u", 22, "h", some ⟨fun _ => (none, "", some ⟨0⟩), false⟩⟩
    ⟨fun _ => (none, "", some ⟨0⟩), false⟩ "_list" []
  have hnone := claim7_amended ⟨"q", "u", 22, "h", none⟩
    ⟨fun _ => (none, "", some ⟨0⟩), false⟩ "_list" []
  exact ⟨hopen.1 rfl, hnone.2.1 rfl, hnone.2.2.1 rfl⟩

/-- C8: when the `_show` command succeeds with an empty payload, show
resolves with no component (a not-found result, not an error); with a
non-empty payload it hands the unpacked payload once to the collaborator
deserializer, decoding one component. -/
theorem claim8_show (s : SSH) (c : Conn)
    (deser : List String → Option ConsumerComponent) (idStr res : String)
    (hconn : s.connection = some c)
    (hresp : c.respond (buildCmd "_show" [absolutePath s.path, idStr]) =
      (none, res, some ⟨0⟩))
    (hnl : '\n' ∉ res.data) :
    (res = "" → s.show deser idStr = .ok none) ∧
    (res ≠ "" → s.show deser idStr = .ok (deser (unpack res))) := by
  have hexec : s.exec "_show" [idStr] = .ok res := by
    unfold SSH.exec
    rw [hconn]
    simp only [hresp, execOutcome]
    rw [clean_of_no_newline res hnl]
  constructor
  · intro h
    unfold SSH.show
    rw [hexec]
    simp [Except.map, showHandle, h]
  · intro h
    unfold SSH.show
    rw [hexec]
    simp [Except.map, showHandle, h]

theorem claim8_show_witness :
    SSH.show ⟨"p", "u", 22, "h", some ⟨fun _ => (none, "", some ⟨0⟩), false⟩⟩
      (fun items => some ⟨String.intercalate "|" items⟩) "a/b" = .ok none ∧
    SSH.show ⟨"p", "u", 22, "h", some ⟨fun _ => (none, "comp", some ⟨0⟩), false⟩⟩
      (fun items => some ⟨String.intercalate "|" items⟩) "a/b" =
        .ok (some ⟨"comp"⟩) := by
  have hempty := claim8_show
    ⟨"p", "u", 22, "h", some ⟨fun _ => (none, "", some ⟨0⟩), false⟩⟩
    ⟨fun _ => (none, "", some ⟨0⟩), false⟩
    (fun items => some ⟨String.intercalate "|" items⟩) "a/b" ""
    rfl rfl (by decide)
  have hfull := claim8_show
    ⟨"p", "u", 22, "h", some ⟨fun _ => (none, "comp", some ⟨0⟩), false⟩⟩
    ⟨fun _ => (none, "comp", some ⟨0⟩), false⟩
    (fun items => some ⟨String.intercalate "|" items⟩) "a/b" "comp"
    rfl rfl (by decide)
  refine ⟨hempty.1 rfl, ?_⟩
  have h := hfull.2 (by decide)
  rwa [show unpack "comp" = ["comp"] from by decide] at h

/-- C9: connect rejects with exactly the error thrown when the external
channel setup (key loading, sequest connect) fails — before any command is
sent — and resolves with the client holding the established connection
handle when setup succeeds. -/
theorem claim9_connect (s : SSH) (sq : String → Except RejectKind Conn)
    (e : RejectKind) (c : Conn) :
    (sq s.composeConnectionUrl = .error e → s.connect sq = .error e) ∧
    (sq s.composeConnectionUrl = .ok c →
      s.connect sq = .ok { s with connection := some c }) := by
  constructor
  · intro h; simp [SSH.connect, h]
  · intro h; simp [SSH.connect, h]

theorem claim9_connect_witness :
    SSH.connect ⟨"p", "u", 22, "h", none⟩
      (fun _ => .error .unexpectedNetworkError) =
        .error .unexpectedNetworkError ∧
    SSH.connect ⟨"p", "u", 22, "h", none⟩
      (fun _ => .ok ⟨fun _ => (none, "", some ⟨0⟩), false⟩) =
        .ok ⟨"p", "u", 22, "h", some ⟨fun _ => (none, "", some ⟨0⟩), false⟩⟩ := by
  have h1 := claim9_connect ⟨"p", "u", 22, "h", none⟩
    (fun _ => .error .unexpectedNetworkError) .unexpectedNetworkError
    ⟨fun _ => (none, "", some ⟨0⟩), false⟩
  have h2 := claim9_connect ⟨"p", "u", 22, "h", none⟩
    (fun _ => .ok ⟨fun _ => (none, "", some ⟨0⟩), false⟩)
    .unexpectedNetworkError ⟨fun _ => (none, "", some ⟨0⟩), false⟩
  exact ⟨h1.1 rfl, h2.2 rfl⟩

end BitSSH
